import Mathlib

/-!
Verification of the Komari status plugin service layer.

The definitions below are a shallow embedding of the service module
(buildHeaders, getBaseUrl, fetchApi, getVersionInfo, getPublicSettings,
getNodesStatus, getRealtimeStatus).  Dynamic JSON values are modeled by
the inductive type JVal; JS truthiness, property access and property
assignment are modeled explicitly.  The JS builtins Date.parse and
JSON.parse are modeled as function parameters, and the network and the
realtime socket are modeled as oracles; each function additionally
returns the list of HTTP requests (and socket connections) it issued.
-/

namespace Komari

/-- A JS number, kept as an exact fraction with positive denominator (the
sign normalization in division maintains this for every value the code
builds).  NaN, infinities and rounding of binary doubles are outside the
model: every quantity the code manipulates is an exact small fraction. -/
structure JsN where
  num : Int
  den : Int
deriving Repr, DecidableEq

/-- Embed an integer. -/
def JsN.ofInt (n : Int) : JsN := ⟨n, 1⟩

/-- Addition of fractions. -/
def JsN.add (a b : JsN) : JsN := ⟨a.num * b.den + b.num * a.den, a.den * b.den⟩

/-- Subtraction of fractions. -/
def JsN.sub (a b : JsN) : JsN := ⟨a.num * b.den - b.num * a.den, a.den * b.den⟩

/-- Multiplication of fractions. -/
def JsN.mul (a b : JsN) : JsN := ⟨a.num * b.num, a.den * b.den⟩

/-- Division of fractions, normalizing the denominator sign (division by
zero is a JS infinity and outside the model). -/
def JsN.div (a b : JsN) : JsN :=
  let n := a.num * b.den
  let d := a.den * b.num
  if d < 0 then ⟨-n, -d⟩ else ⟨n, d⟩

/-- The strict order a < b, valid for positive denominators. -/
def JsN.ltb (a b : JsN) : Bool := decide (a.num * b.den < b.num * a.den)

/-- Math.floor. -/
def JsN.floor (a : JsN) : Int := Int.fdiv a.num a.den

/-- Truncation toward zero, the JS number-to-integer conversion used by
the remainder operator. -/
def JsN.trunc (a : JsN) : Int := a.num / a.den

/-- Zero test, valid for positive denominators. -/
def JsN.isZero (a : JsN) : Bool := decide (a.num = 0)

/-- A JSON / JS runtime value.  NaN and undefined do not occur as stored
values (an undefined property read is modeled as a missing key, and an
assignment of undefined is modeled as null, which is indistinguishable
for every observation this code makes). -/
inductive JVal where
  | jnull : JVal
  | jbool : Bool → JVal
  | jnum : JsN → JVal
  | jstr : String → JVal
  | jarr : List JVal → JVal
  | jobj : List (String × JVal) → JVal
deriving Repr

/-- JS truthiness of a value. -/
def truthy : JVal → Bool
  | .jnull => false
  | .jbool b => b
  | .jnum q => !q.isZero
  | .jstr s => decide (s ≠ "")
  | .jarr _ => true
  | .jobj _ => true

/-- Truthiness of a possibly-undefined value (a missing property is falsy). -/
def truthyO : Option JVal → Bool
  | some v => truthy v
  | none => false

/-- First-binding lookup in an association list (JSON objects have unique
keys, and JSON.parse keeps one binding per key, so this is map lookup). -/
def assocGet : List (String × JVal) → String → Option JVal
  | [], _ => none
  | (k, v) :: t, s => if k = s then some v else assocGet t s

/-- Replace-or-append assignment in an association list, the semantics of
a JS record property write. -/
def assocSet : List (String × JVal) → String → JVal → List (String × JVal)
  | [], k, v => [(k, v)]
  | (k', v') :: t, k, v => if k' = k then (k, v) :: t else (k', v') :: assocSet t k v

/-- Property read.  Reads on arrays and primitives return undefined for
every property name this code reads, so they are modeled as missing. -/
def JVal.get : JVal → String → Option JVal
  | .jobj fs, k => assocGet fs k
  | _, _ => none

/-- Property write.  The code only writes properties on candidate node
records; a write on a non-record value is modeled as a no-op. -/
def JVal.setF : JVal → String → JVal → JVal
  | .jobj fs, k, v => .jobj (assocSet fs k v)
  | other, _, _ => other

/-- Values on which the JS test `typeof v === 'object'` and a truthiness
test both succeed: records and arrays (null is excluded by truthiness). -/
def objLike : JVal → Bool
  | .jobj _ => true
  | .jarr _ => true
  | _ => false

/-- JS number-to-string.  Integral values (the only ones the claims
evaluate through display) render as plain digits, as in JS; the rendering
of non-integral values is a placeholder and is not relied on anywhere. -/
def numToString (q : JsN) : String :=
  if q.num % q.den = 0 then toString (q.num / q.den)
  else toString q.num ++ "/" ++ toString q.den

mutual
/-- JS string coercion String(v), also used by template literals. -/
def JVal.display : JVal → String
  | .jnull => "null"
  | .jbool b => if b then "true" else "false"
  | .jnum q => numToString q
  | .jstr s => s
  | .jarr l => String.intercalate "," (displayArr l)
  | .jobj _ => "[object Object]"

/-- Array元素 coercion inside Array#toString: null renders as empty. -/
def displayArr : List JVal → List String
  | [] => []
  | .jnull :: t => "" :: displayArr t
  | v :: t => v.display :: displayArr t
end

/-- The template `v ?? dflt` rendered with String coercion: a missing or
null value renders as the default string. -/
def nn (v : Option JVal) (dflt : String) : String :=
  match v with
  | some .jnull => dflt
  | some v => v.display
  | none => dflt

/-- Left-pad a digit string with zeros, as in String#padStart(d, zero). -/
def padZeros (d : Nat) (s : String) : String :=
  String.mk (List.replicate (d - s.length) '0') ++ s

/-- Number#toFixed(d): round to d fractional digits, ties rounded up
(the larger candidate, as the toFixed specification picks). -/
def toFixed (d : Nat) (q : JsN) : String :=
  let n : Int := (q.mul (.ofInt (10 ^ d)) |>.add ((JsN.ofInt 1).div (.ofInt 2))).floor
  let sgn := if n < 0 then "-" else ""
  let a := n.natAbs
  let ip := a / 10 ^ d
  let fp := a % 10 ^ d
  if d = 0 then sgn ++ toString ip
  else sgn ++ toString ip ++ "." ++ padZeros d (toString fp)

/-- fmtSpeed from getRealtimeStatus: `if (b > 1024 * 1024)` use MB per
second, else KB per second, one fractional digit. -/
def fmtSpeed (b : JsN) : String :=
  if JsN.ltb (.ofInt (1024 * 1024)) b then toFixed 1 ((b.div (.ofInt 1024)).div (.ofInt 1024)) ++ " MB/s"
  else toFixed 1 (b.div (.ofInt 1024)) ++ " KB/s"

/-- fmtTraffic from getRealtimeStatus: `if (b > 1024 ** 3)` use GB, else
MB, two fractional digits. -/
def fmtTraffic (b : JsN) : String :=
  if JsN.ltb (.ofInt (1024 ^ 3)) b then toFixed 2 (b.div (.ofInt (1024 ^ 3))) ++ " GB"
  else toFixed 2 (b.div (.ofInt (1024 ^ 2))) ++ " MB"

/-- Split a character list at the first occurrence of a pattern, giving
the part before and the part after. -/
def splitAtSub (pat : List Char) : List Char → Option (List Char × List Char)
  | [] => if pat.isEmpty then some ([], []) else none
  | c :: t =>
    if pat.isPrefixOf (c :: t) then some ([], (c :: t).drop pat.length)
    else
      match splitAtSub pat t with
      | some (a, b) => some (c :: a, b)
      | none => none

/-- Replace the first occurrence of a substring, the semantics of the JS
String#replace with a string pattern. -/
def replaceFirstStr (s pat rep : String) : String :=
  match splitAtSub pat.data s.data with
  | some (a, b) => String.mk (a ++ rep.data ++ b)
  | none => s

/-- Suffix test on the underlying characters, String#endsWith. -/
def strEndsWith (s p : String) : Bool := p.data.isSuffixOf s.data

/-- Prefix test on the underlying characters, String#startsWith. -/
def strStartsWith (s p : String) : Bool := p.data.isPrefixOf s.data

/-- JS String#trim: drop whitespace from both ends. -/
def jsTrim (s : String) : String :=
  String.mk (((s.data.dropWhile Char.isWhitespace).reverse.dropWhile Char.isWhitespace).reverse)

/-- Join strings with newline separators, Array#join. -/
def joinLines : List String → String
  | [] => ""
  | [x] => x
  | x :: t => x ++ "\n" ++ joinLines t

/-- Plugin configuration as read by the service: both fields may be
absent in the stored config object. -/
structure Config where
  komariUrl : Option String := none
  komariToken : Option String := none

/-- buildHeaders: trim the configured token; when the trimmed token is
truthy attach the Authorization and Cookie headers, else no headers. -/
def buildHeaders (cfg : Config) : List (String × String) :=
  match cfg.komariToken with
  | none => []
  | some t =>
    let tt := jsTrim t
    if tt = "" then []
    else [("Authorization", "Bearer " ++ tt), ("Cookie", "session_token=" ++ tt)]

/-- getBaseUrl: the configured url with every trailing slash stripped. -/
def getBaseUrl (cfg : Config) : String :=
  String.mk (((cfg.komariUrl.getD "").data.reverse.dropWhile (fun c => c = '/')).reverse)

/-- The configuration-missing error string. -/
def cfgMsg : String := "请在配置中设置 Komari 服务器地址"

/-- The message of the TypeError raised when the 2xx body is JSON null
and the code reads its data property (V8 wording). -/
def nullDataMsg : String := "TypeError: Cannot read properties of null (reading 'data')"

/-- What one GET of a URL can produce: a non-2xx status, a parsed JSON
body, or a thrown transport or parse exception (already stringified). -/
inductive FetchOutcome where
  | ok (body : JVal)
  | notOk (status : Nat)
  | thrown (msg : String)

/-- The record returned by fetchApi. -/
structure FetchResult where
  data : Option JVal := none
  error : Option String := none
  raw : Option JVal := none

/-- One issued request: target URL with the headers sent. -/
def Req := String × List (String × String)

/-- fetchApi: require a non-empty base URL, GET base ++ endpoint with the
auth headers, surface non-2xx and thrown failures as error strings, and
on success return the raw envelope with its data field extracted (the
whole body when the data field is nullish).  Reading the data property of
a null body throws, which the surrounding catch turns into an error.
The second component lists the HTTP requests issued. -/
def fetchApi (cfg : Config) (net : String → FetchOutcome) (endpoint : String) :
    FetchResult × List Req :=
  let base := getBaseUrl cfg
  if base = "" then ({ error := some cfgMsg }, [])
  else
    let url := base ++ endpoint
    let req : List Req := [(url, buildHeaders cfg)]
    match net url with
    | .notOk s => ({ error := some ("API 请求错误: " ++ toString s) }, req)
    | .thrown m => ({ error := some m }, req)
    | .ok j =>
      match j with
      | .jnull => ({ error := some nullDataMsg }, req)
      | _ =>
        let d := match j.get "data" with
          | some v => match v with | .jnull => j | _ => v
          | none => j
        ({ data := some d, raw := some j }, req)

/-- The envelope data object: `raw?.data || empty`. -/
def envData (raw : Option JVal) : JVal :=
  match raw with
  | some r =>
    match r.get "data" with
    | some v => if truthy v then v else .jobj []
    | none => .jobj []
  | none => .jobj []

/-- getVersionInfo: fetch /api/version and format version and hash with
dash fallbacks; an error string from fetchApi is returned as is. -/
def getVersionInfo (cfg : Config) (net : String → FetchOutcome) : String × List Req :=
  let fr := (fetchApi cfg net "/api/version").1
  let reqs := (fetchApi cfg net "/api/version").2
  match fr.error with
  | some e => (e, reqs)
  | none =>
    let d := envData fr.raw
    ("Komari 版本: " ++ (nn (d.get "version") "-" ++ (" (" ++ (nn (d.get "hash") "-" ++ ")"))), reqs)

/-- getPublicSettings: fetch /api/public and format the three settings
lines with their fallbacks; errors pass through. -/
def getPublicSettings (cfg : Config) (net : String → FetchOutcome) : String × List Req :=
  let fr := (fetchApi cfg net "/api/public").1
  let reqs := (fetchApi cfg net "/api/public").2
  match fr.error with
  | some e => (e, reqs)
  | none =>
    let d := envData fr.raw
    ("站点名称: " ++ (nn (d.get "sitename") "未知" ++ ("\n描述: " ++ (nn (d.get "description") ""
      ++ ("\n主题: " ++ nn (d.get "theme") "默认")))), reqs)

/-- The JS remainder a % b (truncated division remainder). -/
def jsRem (a b : JsN) : JsN := a.sub (b.mul (.ofInt ((a.div b).trunc)))

/-- Two-digit zero padding, String(n).padStart(2, zero). -/
def pad2 (n : Nat) : String :=
  let s := toString n
  if s.length < 2 then "0" ++ s else s

/-- Civil date from days since the epoch (proleptic Gregorian), the date
arithmetic performed by the JS Date getUTC accessors. -/
def civilFromDays (z0 : Int) : Int × Nat × Nat :=
  let z := z0 + 719468
  let era := (if z ≥ 0 then z else z - 146096) / 146097
  let doe := (z - era * 146097).toNat
  let yoe := (doe - doe / 1460 + doe / 36524 - doe / 146096) / 365
  let doy := doe - (365 * yoe + yoe / 4 - yoe / 100)
  let mp := (5 * doy + 2) / 153
  let d := doy - (153 * mp + 2) / 5 + 1
  let m := if mp < 10 then mp + 3 else mp - 9
  let y := (era * 400 + yoe) + (if m ≤ 2 then 1 else 0)
  (y, m, d)

/-- Format a millisecond epoch timestamp as `YYYY-MM-DD HH:MM:SS` using
the UTC accessors, as the localized-timestamp code does after adding the
fixed +8h offset. -/
def formatCnFromMs (ms : Int) : String :=
  let days := Int.fdiv ms 86400000
  let rem := (ms - days * 86400000).toNat
  let (y, m, d) := civilFromDays days
  let h := rem / 3600000
  let mi := rem % 3600000 / 60000
  let s := rem % 60000 / 1000
  toString y ++ "-" ++ pad2 m ++ "-" ++ pad2 d ++ " " ++
    pad2 h ++ ":" ++ pad2 mi ++ ":" ++ pad2 s

/-- A node record as typed by the KomariNode interface (the fields the
node-list path reads and writes); absent properties are none. -/
structure KNode where
  id : Option String := none
  uuid : Option String := none
  name : Option String := none
  region : Option String := none
  os : Option String := none
  cpu_name : Option String := none
  cpu_cores : Option JsN := none
  mem_total : Option JsN := none
  disk_total : Option JsN := none
  updated_at : Option String := none
  updated_at_cn : Option String := none
  is_online : Option Bool := none
deriving Repr

/-- The ISO normalization applied before Date.parse: a trailing Z is
rewritten to an explicit +00:00 offset (String#replace rewrites the
first occurrence). -/
def normalizeIso (u : String) : String :=
  if strEndsWith u "Z" then replaceFirstStr u "Z" "+00:00" else u

/-- The per-node map step of getNodesStatus: decide the online flag from
the parsed timestamp (strictly less than 600 seconds old), and when the
parse succeeds overwrite the localized timestamp.  Date.parse is modeled
by the parse parameter, returning the finite millisecond value or none
for NaN; now is the Date.now millisecond clock value. -/
def processNode (parse : String → Option Int) (now : Int) (n : KNode) : KNode :=
  match n.updated_at with
  | some u =>
    if u = "" then { n with is_online := some false }
    else
      match parse (normalizeIso u) with
      | some t =>
        { n with is_online := some (decide (now - t < 600000)),
                 updated_at_cn := some (formatCnFromMs (t + 28800000)) }
      | none => { n with is_online := some false }
  | none => { n with is_online := some false }

/-- The raw-timestamp fallback of the update line: the raw updated_at
with the first T and the first Z removed, empty when updated_at is
falsy. -/
def rawUpd (n : KNode) : String :=
  match n.updated_at with
  | some u => if u = "" then "" else replaceFirstStr (replaceFirstStr u "T" " ") "Z" ""
  | none => ""

/-- The block of report lines for one processed node in getNodesStatus:
a blank separator, the icon line, system, CPU, memory and disk lines
with their fallbacks, and the update line only when the localized or raw
timestamp is truthy. -/
def nodeBlock (n : KNode) : List String :=
  let name := n.name.getD "未知"
  let os := n.os.getD "未知"
  let cpuName := n.cpu_name.getD "未知"
  let cores := n.cpu_cores.getD (.ofInt 0)
  let region := n.region.getD ""
  let memGb := (((n.mem_total.getD (.ofInt 0)).div (.ofInt 1024)).div (.ofInt 1024)).div (.ofInt 1024)
  let diskGb := (((n.disk_total.getD (.ofInt 0)).div (.ofInt 1024)).div (.ofInt 1024)).div (.ofInt 1024)
  let icon := match n.is_online with | some true => "🟢" | _ => "🔴"
  let base := ["",
    "📌 " ++ icon ++ " " ++ region ++ " " ++ name,
    "   系统: " ++ os,
    "   CPU: " ++ cpuName ++ " (" ++ numToString cores ++ " C)",
    "   内存: " ++ toFixed 2 memGb ++ " GB",
    "   磁盘: " ++ toFixed 2 diskGb ++ " GB"]
  let updated := match n.updated_at_cn with
    | some s => if s = "" then rawUpd n else s
    | none => rawUpd n
  if updated = "" then base else base ++ ["   更新: " ++ updated]

/-- Read an optional string-typed field of a JSON node record. -/
def asStr : Option JVal → Option String
  | some (.jstr s) => some s
  | _ => none

/-- Read an optional number-typed field of a JSON node record. -/
def asNum : Option JVal → Option JsN
  | some (.jnum q) => some q
  | _ => none

/-- Read an optional boolean-typed field of a JSON node record. -/
def asBool : Option JVal → Option Bool
  | some (.jbool b) => some b
  | _ => none

/-- Decode one element of the node-list payload into the typed record
the TS cast assumes; fields of unexpected runtime type read as absent. -/
def jvalToKNode (v : JVal) : KNode :=
  { id := asStr (v.get "id"), uuid := asStr (v.get "uuid"), name := asStr (v.get "name"),
    region := asStr (v.get "region"), os := asStr (v.get "os"),
    cpu_name := asStr (v.get "cpu_name"), cpu_cores := asNum (v.get "cpu_cores"),
    mem_total := asNum (v.get "mem_total"), disk_total := asNum (v.get "disk_total"),
    updated_at := asStr (v.get "updated_at"), updated_at_cn := asStr (v.get "updated_at_cn"),
    is_online := asBool (v.get "is_online") }

/-- The text-or-error result of the two report entry points. -/
inductive KResult where
  | text (s : String)
  | error (s : String)
deriving Repr

/-- The success path of getNodesStatus once the envelope has status
success: an empty node list is the no-nodes error, otherwise the nodes
are processed and rendered under the header.  A truthy non-array data
field has a falsy length in JS and takes the same no-nodes error (a
string body, which would raise on map, is outside the model). -/
def nodesBody (parse : String → Option Int) (now : Int) (raw : JVal) : KResult :=
  let nodesJ : List JVal := match raw.get "data" with
    | some (.jarr l) => l
    | _ => []
  match nodesJ with
  | [] => .error "未找到任何节点。"
  | _ =>
    .text (joinLines
      ("🖥️ Komari 服务器状态" ::
        ((nodesJ.map (fun v => processNode parse now (jvalToKNode v))).map nodeBlock).flatten))

/-- getNodesStatus: fetch /api/nodes, pass fetch errors through, map a
falsy envelope or a status other than success to the API-failure error,
and otherwise render the node report. -/
def getNodesStatus (cfg : Config) (net : String → FetchOutcome)
    (parse : String → Option Int) (now : Int) : KResult × List Req :=
  let fr := (fetchApi cfg net "/api/nodes").1
  let reqs := (fetchApi cfg net "/api/nodes").2
  (match fr.error with
   | some e => .error e
   | none =>
     match fr.raw with
     | none => .error ("API 调用失败: " ++ "未知错误")
     | some raw =>
       if truthy raw then
         match raw.get "status" with
         | some (.jstr "success") => nodesBody parse now raw
         | _ => .error ("API 调用失败: " ++ nn (raw.get "message") "未知错误")
       else .error ("API 调用失败: " ++ nn (raw.get "message") "未知错误"), reqs)

/-- The seven static metadata keys backfilled into a realtime candidate. -/
def mergeFields : List String := ["name", "region", "os", "cpu_name", "cpu_cores", "mem_total", "disk_total"]

/-- JSON object keys are strings; a lookup value of another shape (which
JS would stringify) does not occur in the modeled payloads. -/
def keyOf : JVal → Option String
  | .jstr s => some s
  | _ => none

/-- Build the static lookup table from the node-list data array: register
each element under its truthy id and then under its truthy uuid, later
elements overwriting earlier bindings.  A null element raises on property
access in JS and the surrounding catch keeps the partial table, so the
walk stops there. -/
def buildStaticMap : List JVal → List (String × JVal) → List (String × JVal)
  | [], acc => acc
  | .jnull :: _, acc => acc
  | n :: t, acc =>
    let acc1 := match n.get "id" with
      | some v =>
        if truthy v then
          match keyOf v with
          | some s => assocSet acc s n
          | none => acc
        else acc
      | none => acc
    let acc2 := match n.get "uuid" with
      | some v =>
        if truthy v then
          match keyOf v with
          | some s => assocSet acc1 s n
          | none => acc1
        else acc1
      | none => acc1
    buildStaticMap t acc2

/-- The lookup value `node.uuid || node.id`. -/
def lookupVal (node : JVal) : Option JVal :=
  match node.get "uuid" with
  | some v => if truthy v then some v else node.get "id"
  | none => node.get "id"

/-- The static record used for backfill: found when the lookup value is
truthy and the table holds a truthy entry under it. -/
def lookupStatic (sn : List (String × JVal)) (node : JVal) : Option JVal :=
  match lookupVal node with
  | some lv =>
    if truthy lv then
      match keyOf lv with
      | some s =>
        match assocGet sn s with
        | some sr => if truthy sr then some sr else none
        | none => none
      | none => none
    else none
  | none => none

/-- One key of the backfill loop: copy the static value only when the
candidate value is falsy and the static value is truthy. -/
def backfillStep (sr : JVal) (acc : JVal) (k : String) : JVal :=
  if !truthyO (acc.get k) && truthyO (sr.get k) then
    acc.setF k ((sr.get k).getD .jnull)
  else acc

/-- The backfill loop over the seven static keys. -/
def backfill (sr node : JVal) : JVal := mergeFields.foldl (backfillStep sr) node

/-- The static-information merge of getRealtimeStatus: when a truthy
static record is found for the candidate, backfill the seven keys. -/
def mergeStatic (sn : List (String × JVal)) (node : JVal) : JVal :=
  match lookupStatic sn node with
  | some sr => backfill sr node
  | none => node

/-- CPU derivation: a numeric usage inside an object-like cpu field. -/
def deriveCpu (n : JVal) : JVal :=
  match n.get "cpu" with
  | some c =>
    if truthy c && objLike c then
      match c.get "usage" with
      | some (.jnum q) => n.setF "cpu_usage_percent" (.jnum q)
      | _ => n
    else n
  | none => n

/-- RAM derivation: numeric used and total with positive total give the
GB figures and the percentage; with no object-like ram field a numeric
static mem_total gives the total only. -/
def deriveRam (n : JVal) : JVal :=
  let fallback :=
    match n.get "mem_total" with
    | some (.jnum m) => n.setF "ram_total_gb" (.jnum (m.div (.ofInt (1024 ^ 3))))
    | _ => n
  match n.get "ram" with
  | some r =>
    if truthy r && objLike r then
      match r.get "used", r.get "total" with
      | some (.jnum used), some (.jnum total) =>
        if JsN.ltb (.ofInt 0) total then
          ((n.setF "ram_total_gb" (.jnum (total.div (.ofInt (1024 ^ 3))))).setF
            "ram_used_gb" (.jnum (used.div (.ofInt (1024 ^ 3))))).setF
            "ram_usage_percent" (.jnum ((used.div total).mul (.ofInt 100)))
        else n
      | _, _ => n
    else fallback
  | none => fallback

/-- Disk derivation, the same pattern as RAM over disk and disk_total. -/
def deriveDisk (n : JVal) : JVal :=
  let fallback :=
    match n.get "disk_total" with
    | some (.jnum m) => n.setF "disk_total_gb" (.jnum (m.div (.ofInt (1024 ^ 3))))
    | _ => n
  match n.get "disk" with
  | some r =>
    if truthy r && objLike r then
      match r.get "used", r.get "total" with
      | some (.jnum used), some (.jnum total) =>
        if JsN.ltb (.ofInt 0) total then
          ((n.setF "disk_total_gb" (.jnum (total.div (.ofInt (1024 ^ 3))))).setF
            "disk_used_gb" (.jnum (used.div (.ofInt (1024 ^ 3))))).setF
            "disk_usage_percent" (.jnum ((used.div total).mul (.ofInt 100)))
        else n
      | _, _ => n
    else fallback
  | none => fallback

/-- Network derivation: numeric up and down become speed strings, numeric
totals become traffic strings. -/
def deriveNet (n : JVal) : JVal :=
  match n.get "network" with
  | some w =>
    if truthy w && objLike w then
      let n1 := match w.get "up" with
        | some (.jnum q) => n.setF "net_up_str" (.jstr (fmtSpeed q))
        | _ => n
      let n2 := match w.get "down" with
        | some (.jnum q) => n1.setF "net_down_str" (.jstr (fmtSpeed q))
        | _ => n1
      let n3 := match w.get "totalUp" with
        | some (.jnum q) => n2.setF "traffic_up_str" (.jstr (fmtTraffic q))
        | _ => n2
      match w.get "totalDown" with
      | some (.jnum q) => n3.setF "traffic_down_str" (.jstr (fmtTraffic q))
      | _ => n3
    else n
  | none => n

/-- Uptime rendering: whole days and hours of a numeric seconds value. -/
def uptimeStr (sec : JsN) : String :=
  toString (sec.div (.ofInt 86400)).floor ++ "天 " ++
    toString ((jsRem sec (.ofInt 86400)).div (.ofInt 3600)).floor ++ "小时"

/-- Uptime derivation. -/
def deriveUptime (n : JVal) : JVal :=
  match n.get "uptime" with
  | some (.jnum sec) => n.setF "uptime_str" (.jstr (uptimeStr sec))
  | _ => n

/-- Load derivation: the three load fields are copied unconditionally
when the load field is object-like; an absent inner field is written as
an undefined value, modeled as null. -/
def deriveLoad (n : JVal) : JVal :=
  match n.get "load" with
  | some v =>
    if truthy v && objLike v then
      ((n.setF "load_1" ((v.get "load1").getD .jnull)).setF
        "load_5" ((v.get "load5").getD .jnull)).setF
        "load_15" ((v.get "load15").getD .jnull)
    else n
  | none => n

/-- A property value under the typeof-number guard. -/
def numProp (n : JVal) (k : String) : Option JsN :=
  match n.get k with
  | some (.jnum q) => some q
  | _ => none

/-- The value of `p ?? 0` fed to toFixed in the load line; a non-numeric
non-null value would raise in JS and does not occur in the model. -/
def numPropD (n : JVal) (k : String) : JsN :=
  match n.get k with
  | some (.jnum q) => q
  | _ => .ofInt 0

/-- The realtime report lines of one normalized node. -/
def rtNodeLines (n : JVal) : List String :=
  ["", "📌 " ++ nn (n.get "region") "" ++ " " ++ nn (n.get "name") "未知节点",
   "   OS: " ++ nn (n.get "os") "-"]
  ++ (match numProp n "cpu_usage_percent" with
      | some q => ["   CPU: " ++ toFixed 2 q ++ "%"]
      | none => [])
  ++ (match numProp n "ram_total_gb" with
      | some q => ["   内存: " ++ toFixed 2 q ++ " GB"]
      | none => [])
  ++ (match numProp n "disk_total_gb" with
      | some q => ["   磁盘: " ++ toFixed 2 q ++ " GB"]
      | none => [])
  ++ (if truthyO (n.get "net_up_str") || truthyO (n.get "net_down_str") then
        ["   网络: ↑" ++ nn (n.get "net_up_str") "-" ++ " ↓" ++ nn (n.get "net_down_str") "-"]
      else [])
  ++ (match n.get "uptime_str" with
      | some v => if truthy v then ["   运行: " ++ v.display] else []
      | none => [])
  ++ (match numProp n "load_1" with
      | some q => ["   负载: " ++ toFixed 2 q ++ " / " ++ toFixed 2 (numPropD n "load_5")
                    ++ " / " ++ toFixed 2 (numPropD n "load_15")]
      | none => [])

/-- The body of the realtime loop for one candidate: a string candidate
is JSON-parsed first and kept as is on failure; a candidate that is then
falsy or not object-like is skipped; otherwise it is merged with the
static record, normalized and rendered. -/
def renderNode (pj : String → Option JVal) (sn : List (String × JVal)) (node0 : JVal) :
    List String :=
  let node1 := match node0 with
    | .jstr s => match pj s with | some v => v | none => .jstr s
    | v => v
  if truthy node1 && objLike node1 then
    rtNodeLines (deriveLoad (deriveUptime (deriveNet (deriveDisk
      (deriveRam (deriveCpu (mergeStatic sn node1)))))))
  else []

/-- The realtime loop over the candidate list, appending the lines of
each candidate in order. -/
def renderLoop (pj : String → Option JVal) (sn : List (String × JVal)) :
    List JVal → List String
  | [] => []
  | n :: t => renderNode pj sn n ++ renderLoop pj sn t

/-- Candidate selection of getRealtimeStatus: an array payload gives its
first 10 elements; an object payload gives, for the first 10 entries of
its online array, the truthy entry of its data mapping under that
identifier, else a record holding only that identifier; any other
payload gives no candidates. -/
def extractCandidates (payload : JVal) : List JVal :=
  match payload with
  | .jarr l => l.take 10
  | .jobj fs =>
    let online : List JVal := match JVal.get (.jobj fs) "online" with
      | some (.jarr l) => l
      | _ => []
    let details : JVal := match JVal.get (.jobj fs) "data" with
      | some v => if truthy v && objLike v then v else .jobj []
      | none => .jobj []
    (online.take 10).map (fun u =>
      let found : Option JVal := match u with
        | .jstr s => details.get s
        | _ => none
      match found with
      | some v => if truthy v then v else .jobj [("uuid", u)]
      | none => .jobj [("uuid", u)])
  | _ => []

/-- What the one-shot realtime socket wait can produce: the first inbound
message text, a connection error (already stringified), or the 3 second
timeout. -/
inductive WsOutcome where
  | msg (s : String)
  | connError (e : String)
  | timedOut

/-- getRealtimeStatus: require a non-empty base URL; best-effort fetch of
the static node list; then settle the socket race.  A message is JSON
parsed (an unparsable message is an empty record), its data field or the
whole value is the payload, and the candidate loop renders the report,
with a placeholder line when no candidate produced lines.  The second
and third components list the HTTP requests and socket connections
opened. -/
def getRealtimeStatus (cfg : Config) (net : String → FetchOutcome) (ws : WsOutcome)
    (pj : String → Option JVal) : KResult × List Req × List Req :=
  let base := getBaseUrl cfg
  if base = "" then (.error cfgMsg, [], [])
  else
    let wsUrl := replaceFirstStr (replaceFirstStr base "https://" "wss://") "http://" "ws://"
      ++ "/api/clients"
    let fr := (fetchApi cfg net "/api/nodes").1
    let reqs1 := (fetchApi cfg net "/api/nodes").2
    let sn := match fr.raw with
      | some raw =>
        match raw.get "data" with
        | some (.jarr l) => buildStaticMap l []
        | _ => []
      | none => []
    let wsConns : List Req := [(wsUrl, buildHeaders cfg)]
    match ws with
    | .connError e => (.error ("连接失败: " ++ e), reqs1, wsConns)
    | .timedOut => (.error ("连接失败: Error: 实时数据超时"), reqs1, wsConns)
    | .msg m =>
      let data := (pj m).getD (.jobj [])
      let payload := match data.get "data" with
        | some v => match v with | .jnull => data | _ => v
        | none => data
      let body := renderLoop pj sn (extractCandidates payload)
      let lines := "📊 Komari 实时状态" ::
        (match body with
         | [] => ["未获取到数据，请检查服务状态。"]
         | _ => body)
      (.text (joinLines lines), reqs1, wsConns)

/-- The candidate of the C1 example: uuid u with a present name. -/
def c1fs : List (String × JVal) := [("uuid", .jstr "u"), ("name", .jstr "A")]

/-- The static record of the C1 example. -/
def c1sr : JVal := .jobj [("name", .jstr "B"), ("os", .jstr "linux")]

/-- The static table of the C1 example. -/
def c1sn : List (String × JVal) := [("u", c1sr)]

/-- A node record with every field absent. -/
def emptyKNode : KNode := {}

/-- The C9 counterexample node: a payload-supplied localized timestamp
with no updated_at. -/
def c9node : KNode := { updated_at_cn := some "2024-01-01 00:00:00" }

/-- A network oracle answering every GET with a JSON null body. -/
def c8netNull : String → FetchOutcome := fun _ => .ok .jnull

/-- A network oracle answering every GET with a failed envelope carrying
no data. -/
def c8netFailed : String → FetchOutcome := fun _ => .ok (.jobj [("status", .jstr "failed")])

/-- A configuration with a base URL and no token. -/
def c8cfg : Config := { komariUrl := some "http://x" }

/-- A configured URL that strips to the empty base. -/
def c4cfg : Config := { komariUrl := some "///" }

/-- The data mapping of the C6 example. -/
def c6d : List (String × JVal) := [("a", .jobj [("name", .jstr "A")])]

/-- The object realtime payload of the C6 example: two online ids, one
with a data entry. -/
def c6fs : List (String × JVal) :=
  [("online", .jarr [.jstr "a", .jstr "b"]), ("data", .jobj c6d)]

/-! Helper lemmas about the association-list object model. -/

theorem assocGet_assocSet_self (fs : List (String × JVal)) (k : String) (v : JVal) :
    assocGet (assocSet fs k v) k = some v := by
  induction fs with
  | nil => simp [assocSet, assocGet]
  | cons p t ih =>
    obtain ⟨k', v'⟩ := p
    by_cases h : k' = k
    · simp [assocSet, h, assocGet]
    · simp [assocSet, h, assocGet, ih]

theorem assocGet_assocSet_ne (fs : List (String × JVal)) (k k' : String) (v : JVal)
    (h : k' ≠ k) : assocGet (assocSet fs k v) k' = assocGet fs k' := by
  induction fs with
  | nil => simp [assocSet, assocGet, Ne.symm h]
  | cons p t ih =>
    obtain ⟨k0, v0⟩ := p
    by_cases h0 : k0 = k
    · subst h0
      simp [assocSet, assocGet, Ne.symm h]
    · by_cases h1 : k0 = k'
      · simp [assocSet, h0, assocGet, h1, h]
      · simp [assocSet, h0, assocGet, h1, ih]

theorem assocGet_mem (d : List (String × JVal)) (s : String) (v : JVal)
    (h : assocGet d s = some v) : (s, v) ∈ d := by
  induction d with
  | nil => simp [assocGet] at h
  | cons p t ih =>
    obtain ⟨k, w⟩ := p
    by_cases hk : k = s
    · subst hk
      simp [assocGet] at h
      simp [h]
    · simp [assocGet, hk] at h
      exact List.mem_cons_of_mem _ (ih h)

theorem get_setF_ne (n : JVal) (k k' : String) (v : JVal) (h : k' ≠ k) :
    (n.setF k v).get k' = n.get k' := by
  cases n <;> simp [JVal.setF, JVal.get, assocGet_assocSet_ne _ _ _ _ h]

theorem truthyO_some (o : Option JVal) (h : truthyO o = true) :
    ∃ v, o = some v ∧ truthy v = true := by
  cases o with
  | none => simp [truthyO] at h
  | some v => exact ⟨v, rfl, h⟩

/-! Helper lemmas about the backfill loop. -/

theorem backfillStep_jobj (sr : JVal) (fs : List (String × JVal)) (k : String) :
    ∃ gs, backfillStep sr (.jobj fs) k = .jobj gs := by
  unfold backfillStep
  split
  · exact ⟨assocSet fs k ((sr.get k).getD .jnull), rfl⟩
  · exact ⟨fs, rfl⟩

theorem backfillStep_get_ne (sr : JVal) (n : JVal) (k k' : String) (h : k' ≠ k) :
    (backfillStep sr n k).get k' = n.get k' := by
  unfold backfillStep
  split
  · exact get_setF_ne n k k' _ h
  · rfl

theorem backfillStep_get_self (sr : JVal) (fs : List (String × JVal)) (k : String) :
    (backfillStep sr (.jobj fs) k).get k =
      if truthyO (JVal.get (.jobj fs) k) then JVal.get (.jobj fs) k
      else if truthyO (sr.get k) then sr.get k
      else JVal.get (.jobj fs) k := by
  by_cases hn : truthyO (JVal.get (.jobj fs) k)
  · simp [backfillStep, hn]
  · by_cases hs : truthyO (sr.get k)
    · obtain ⟨w, hw, hwt⟩ := truthyO_some _ hs
      rw [Bool.not_eq_true] at hn
      rw [backfillStep, hw]
      simp only [JVal.get] at hn
      have hws : truthyO (some w) = true := by simp [truthyO, hwt]
      simp [hn, hws, JVal.setF, JVal.get, assocGet_assocSet_self]
    · rw [Bool.not_eq_true] at hn hs
      simp [backfillStep, hn, hs]

theorem backfill_fold_not_mem (sr : JVal) (ks : List String) (fs : List (String × JVal))
    (k : String) (hk : k ∉ ks) :
    (ks.foldl (backfillStep sr) (.jobj fs)).get k = JVal.get (.jobj fs) k := by
  induction ks generalizing fs with
  | nil => rfl
  | cons k0 rest ih =>
    obtain ⟨fs1, hfs1⟩ := backfillStep_jobj sr fs k0
    have hne : k ≠ k0 := fun h => hk (h ▸ List.mem_cons_self k0 rest)
    have hrest : k ∉ rest := fun h => hk (List.mem_cons_of_mem _ h)
    calc ((k0 :: rest).foldl (backfillStep sr) (.jobj fs)).get k
        = (rest.foldl (backfillStep sr) (.jobj fs1)).get k := by
          simp [List.foldl, hfs1]
      _ = JVal.get (.jobj fs1) k := ih fs1 hrest
      _ = (backfillStep sr (.jobj fs) k0).get k := by rw [hfs1]
      _ = JVal.get (.jobj fs) k := backfillStep_get_ne sr _ k0 k hne

theorem backfill_fold_mem (sr : JVal) (ks : List String) (fs : List (String × JVal))
    (k : String) (hnd : ks.Nodup) (hk : k ∈ ks) :
    (ks.foldl (backfillStep sr) (.jobj fs)).get k =
      if truthyO (JVal.get (.jobj fs) k) then JVal.get (.jobj fs) k
      else if truthyO (sr.get k) then sr.get k
      else JVal.get (.jobj fs) k := by
  induction ks generalizing fs with
  | nil => cases hk
  | cons k0 rest ih =>
    obtain ⟨fs1, hfs1⟩ := backfillStep_jobj sr fs k0
    have hfold : ((k0 :: rest).foldl (backfillStep sr) (.jobj fs)).get k
        = (rest.foldl (backfillStep sr) (.jobj fs1)).get k := by
      simp [List.foldl, hfs1]
    rcases List.nodup_cons.1 hnd with ⟨hk0, hndr⟩
    by_cases hkk : k = k0
    · subst hkk
      rw [hfold, backfill_fold_not_mem sr rest fs1 k hk0, ← hfs1]
      exact backfillStep_get_self sr _ k
    · have hkr : k ∈ rest := by
        rcases List.mem_cons.1 hk with h | h
        · exact absurd h hkk
        · exact h
      have hsame : JVal.get (.jobj fs1) k = JVal.get (.jobj fs) k := by
        rw [← hfs1]
        exact backfillStep_get_ne sr _ k0 k hkk
      rw [hfold, ih fs1 hndr hkr, hsame]

/-! Helper lemmas about the realtime loop. -/

theorem renderLoop_append (pj : String → Option JVal) (sn : List (String × JVal))
    (l1 l2 : List JVal) :
    renderLoop pj sn (l1 ++ l2) = renderLoop pj sn l1 ++ renderLoop pj sn l2 := by
  induction l1 with
  | nil => rfl
  | cons n t ih => simp [renderLoop, ih]

theorem strAppend_assoc (a b c : String) : a ++ b ++ c = a ++ (b ++ c) := by
  apply String.ext
  simp

theorem nodeBlock_get1 (n : KNode) :
    (nodeBlock n).get? 1 =
      some ("📌 " ++ (match n.is_online with | some true => "🟢" | _ => "🔴")
        ++ " " ++ n.region.getD "" ++ " " ++ n.name.getD "未知") := by
  simp only [nodeBlock]
  split <;> rfl

theorem fetchApi_ok (cfg : Config) (net : String → FetchOutcome) (endpoint : String)
    (v : JVal) (h1 : getBaseUrl cfg ≠ "")
    (h2 : net (getBaseUrl cfg ++ endpoint) = .ok v) (h3 : v ≠ .jnull) :
    fetchApi cfg net endpoint =
      ({ data := some (match v.get "data" with
            | some w => match w with | .jnull => v | _ => w
            | none => v),
         raw := some v }, [(getBaseUrl cfg ++ endpoint, buildHeaders cfg)]) := by
  simp only [fetchApi]
  rw [if_neg h1, h2]
  cases v with
  | jnull => exact absurd rfl h3
  | jbool b => rfl
  | jnum q => rfl
  | jstr s => rfl
  | jarr l => rfl
  | jobj fs => rfl

theorem envData_eq (v1 v2 : JVal) (h : v1.get "data" = v2.get "data") :
    envData (some v1) = envData (some v2) := by
  simp [envData, h]

theorem getVersionInfo_ok (cfg : Config) (net : String → FetchOutcome) (v : JVal)
    (h1 : getBaseUrl cfg ≠ "") (h2 : net (getBaseUrl cfg ++ "/api/version") = .ok v)
    (h3 : v ≠ .jnull) :
    (getVersionInfo cfg net).1 =
      "Komari 版本: " ++ (nn ((envData (some v)).get "version") "-"
        ++ (" (" ++ (nn ((envData (some v)).get "hash") "-" ++ ")"))) := by
  simp [getVersionInfo, fetchApi_ok cfg net "/api/version" v h1 h2 h3]

theorem getPublicSettings_ok (cfg : Config) (net : String → FetchOutcome) (v : JVal)
    (h1 : getBaseUrl cfg ≠ "") (h2 : net (getBaseUrl cfg ++ "/api/public") = .ok v)
    (h3 : v ≠ .jnull) :
    (getPublicSettings cfg net).1 =
      "站点名称: " ++ (nn ((envData (some v)).get "sitename") "未知"
        ++ ("\n描述: " ++ (nn ((envData (some v)).get "description") ""
        ++ ("\n主题: " ++ nn ((envData (some v)).get "theme") "默认")))) := by
  simp [getPublicSettings, fetchApi_ok cfg net "/api/public" v h1 h2 h3]

theorem getNodesStatus_api_fail (cfg : Config) (net : String → FetchOutcome)
    (pd : String → Option Int) (now : Int) (v : JVal)
    (h1 : getBaseUrl cfg ≠ "") (h2 : net (getBaseUrl cfg ++ "/api/nodes") = .ok v)
    (ht : truthy v = true)
    (hst : ∀ s, v.get "status" = some s → s ≠ .jstr "success") :
    (getNodesStatus cfg net pd now).1 =
      .error ("API 调用失败: " ++ nn (v.get "message") "未知错误") := by
  have hnn : v ≠ .jnull := by
    intro he
    rw [he] at ht
    simp [truthy] at ht
  simp only [getNodesStatus, fetchApi_ok cfg net "/api/nodes" v h1 h2 hnn, ht, if_true]
  split
  · rename_i heq
    exact absurd rfl (hst _ heq)
  · rfl

/-! The claims. -/

/-- C1: in getRealtimeStatus the static lookup is by uuid first with id
as fallback, and the merge copies each of the seven static keys only
when the candidate value is falsy and the static value is truthy; a
present (truthy) candidate value is never overwritten, as in the
candidate name A merged with static name B, os linux. -/
theorem c1_static_backfill :
    (∀ sn fs sr k, lookupStatic sn (.jobj fs) = some sr → k ∈ mergeFields →
      (mergeStatic sn (.jobj fs)).get k =
        if truthyO (JVal.get (.jobj fs) k) then JVal.get (.jobj fs) k
        else if truthyO (sr.get k) then sr.get k
        else JVal.get (.jobj fs) k)
    ∧ (∀ node u, node.get "uuid" = some u → truthy u = true → lookupVal node = some u)
    ∧ (∀ node u, node.get "uuid" = some u → truthy u = false → lookupVal node = node.get "id")
    ∧ (∀ node, node.get "uuid" = none → lookupVal node = node.get "id")
    ∧ (mergeStatic c1sn (.jobj c1fs)).get "name" = some (.jstr "A")
    ∧ (mergeStatic c1sn (.jobj c1fs)).get "os" = some (.jstr "linux") := by
  refine ⟨?_, ?_, ?_, ?_, rfl, rfl⟩
  · intro sn fs sr k h hk
    simp only [mergeStatic, h, backfill]
    exact backfill_fold_mem sr mergeFields fs k (by decide) hk
  · intro node u h ht
    simp [lookupVal, h, ht]
  · intro node u h ht
    simp [lookupVal, h, ht]
  · intro node h
    simp [lookupVal, h]

/-- C1 witness: the characterization applied to the example candidate
and static record at the os key. -/
theorem c1_static_backfill_witness :
    lookupStatic c1sn (.jobj c1fs) = some c1sr ∧
    (mergeStatic c1sn (.jobj c1fs)).get "os" =
      (if truthyO (JVal.get (.jobj c1fs) "os") then JVal.get (.jobj c1fs) "os"
       else if truthyO (c1sr.get "os") then c1sr.get "os"
       else JVal.get (.jobj c1fs) "os") :=
  ⟨rfl, c1_static_backfill.1 c1sn c1fs c1sr "os" rfl (by decide)⟩

/-- C3 counterexample: at exactly 1048576 bytes per second the code
takes the KB branch (the comparison is strict), so the claimed rendering
"1.0 MB/s" is wrong, and at exactly one GiB the traffic renders in MB. -/
theorem c3_threshold_counterexample :
    fmtSpeed (.ofInt 1048576) = "1024.0 KB/s"
    ∧ fmtSpeed (.ofInt 1048576) ≠ "1.0 MB/s"
    ∧ fmtTraffic (.ofInt 1073741824) = "1024.00 MB" := by
  refine ⟨by decide, by decide, by decide⟩

/-- C3 amended: the unit switches strictly above the thresholds: speeds
at most one MiB per second render in KB per second and greater speeds in
MB per second; traffic at most one GiB renders in MB and greater values
in GB; 1048575 renders as 1024.0 KB/s and 1048577 as 1.0 MB/s. -/
theorem c3_threshold_amended (b : JsN) :
    (JsN.ltb (.ofInt (1024 * 1024)) b = false → ∃ v, fmtSpeed b = v ++ " KB/s")
    ∧ (JsN.ltb (.ofInt (1024 * 1024)) b = true → ∃ v, fmtSpeed b = v ++ " MB/s")
    ∧ (JsN.ltb (.ofInt (1024 ^ 3)) b = false → ∃ v, fmtTraffic b = v ++ " MB")
    ∧ (JsN.ltb (.ofInt (1024 ^ 3)) b = true → ∃ v, fmtTraffic b = v ++ " GB")
    ∧ fmtSpeed (.ofInt 1048575) = "1024.0 KB/s"
    ∧ fmtSpeed (.ofInt 1048577) = "1.0 MB/s" := by
  refine ⟨fun h => ?_, fun h => ?_, fun h => ?_, fun h => ?_, by decide, by decide⟩
  · rw [fmtSpeed, if_neg (by simpa using h)]
    exact ⟨_, rfl⟩
  · rw [fmtSpeed, if_pos (by simpa using h)]
    exact ⟨_, rfl⟩
  · rw [fmtTraffic, if_neg (by simpa using h)]
    exact ⟨_, rfl⟩
  · rw [fmtTraffic, if_pos (by simpa using h)]
    exact ⟨_, rfl⟩

/-- C3 witness: the amended statement applied at 2048 bytes per second,
a speed below the threshold. -/
theorem c3_threshold_amended_witness :
    JsN.ltb (.ofInt (1024 * 1024)) (.ofInt 2048) = false
    ∧ ∃ v, fmtSpeed (.ofInt 2048) = v ++ " KB/s" :=
  ⟨by decide, (c3_threshold_amended (.ofInt 2048)).1 (by decide)⟩

/-- C7: a string candidate whose JSON parse fails is skipped (it yields
no lines and no merge happens for it), and the loop output for a list
containing it is exactly the output of the other elements: processing is
not aborted and no exception escapes (the loop is a total function). -/
theorem c7_parse_failure_isolated (pj : String → Option JVal) (sn : List (String × JVal))
    (s : String) (pre post : List JVal) (h : pj s = none) :
    renderNode pj sn (.jstr s) = []
    ∧ renderLoop pj sn (pre ++ .jstr s :: post)
      = renderLoop pj sn pre ++ renderLoop pj sn post := by
  have h1 : renderNode pj sn (.jstr s) = [] := by
    simp [renderNode, h, objLike]
  refine ⟨h1, ?_⟩
  rw [renderLoop_append]
  simp [renderLoop, h1]

/-- C7 witness: a failing parse of the middle element of a three-element
candidate list leaves exactly the lines of the two others. -/
theorem c7_parse_failure_isolated_witness :
    (fun (_ : String) => (none : Option JVal)) "x" = none
    ∧ renderLoop (fun _ => none) [] ([.jobj [("name", .jstr "N")]] ++ .jstr "x" :: [.jobj []])
      = renderLoop (fun _ => none) [] [.jobj [("name", .jstr "N")]]
        ++ renderLoop (fun _ => none) [] [.jobj []] :=
  ⟨rfl, (c7_parse_failure_isolated (fun _ => none) [] "x"
      [.jobj [("name", .jstr "N")]] [.jobj []] rfl).2⟩

/-- C10: buildHeaders trims the configured token; an absent, empty or
whitespace-only token yields no headers at all, any other token yields
exactly the bearer Authorization header and the session cookie header
carrying the trimmed token (both HTTP and socket connections send this
same header map). -/
theorem c10_token_headers :
    (∀ cfg, cfg.komariToken = none → buildHeaders cfg = [])
    ∧ (∀ cfg t, cfg.komariToken = some t → jsTrim t = "" → buildHeaders cfg = [])
    ∧ (∀ cfg t, cfg.komariToken = some t → jsTrim t ≠ "" →
        buildHeaders cfg = [("Authorization", "Bearer " ++ jsTrim t),
          ("Cookie", "session_token=" ++ jsTrim t)]) := by
  refine ⟨?_, ?_, ?_⟩
  · intro cfg h
    simp [buildHeaders, h]
  · intro cfg t h ht
    simp [buildHeaders, h, ht]
  · intro cfg t h ht
    simp [buildHeaders, h, ht]

/-- C10 witness: a whitespace-only token yields no headers and a padded
token yields both headers with the trimmed value. -/
theorem c10_token_headers_witness :
    (jsTrim "   " = "" ∧ buildHeaders { komariToken := some "   " } = [])
    ∧ (jsTrim " tok " ≠ ""
       ∧ buildHeaders { komariToken := some " tok " } =
          [("Authorization", "Bearer " ++ jsTrim " tok "),
           ("Cookie", "session_token=" ++ jsTrim " tok ")]) :=
  ⟨⟨by decide, c10_token_headers.2.1 { komariToken := some "   " } "   " rfl (by decide)⟩,
   ⟨by decide, c10_token_headers.2.2 { komariToken := some " tok " } " tok " rfl (by decide)⟩⟩

/-- C2: in getNodesStatus a node is marked online exactly when its
updated_at string is present, nonempty, parses to a finite millisecond
time t, and now minus t is strictly below 600 seconds; at exactly 600
seconds, or with an absent or unparsable timestamp, the node is offline,
and the report line carries the green icon exactly in the online case
and the red icon otherwise. -/
theorem c2_online_freshness (parse : String → Option Int) (now : Int) (n : KNode) :
    ((processNode parse now n).is_online = some true ↔
      ∃ u t, n.updated_at = some u ∧ u ≠ "" ∧ parse (normalizeIso u) = some t
        ∧ now - t < 600000)
    ∧ ∃ rest, (nodeBlock (processNode parse now n)).get? 1 =
        some ("📌 " ++ ((if (processNode parse now n).is_online = some true
          then "🟢" else "🔴") ++ rest)) := by
  constructor
  · cases h : n.updated_at with
    | none => simp [processNode, h]
    | some u =>
      by_cases hu : u = ""
      · subst hu
        simp [processNode, h]
      · cases hp : parse (normalizeIso u) with
        | none => simp [processNode, h, hu, hp]
        | some t => simp [processNode, h, hu, hp]
  · rw [nodeBlock_get1]
    refine ⟨" " ++ (processNode parse now n).region.getD ""
      ++ " " ++ (processNode parse now n).name.getD "未知", ?_⟩
    rcases ho : (processNode parse now n).is_online with _ | b
    · simp only [ho]
      simp only [← strAppend_assoc]
      simp
    · cases b
      · simp only [ho]
        simp only [← strAppend_assoc]
        simp
      · simp only [ho]
        simp only [← strAppend_assoc]
        simp

/-- C4: with an empty configured base URL, or one that strips to empty
after removing trailing slashes, fetchApi and all four entry points
return the configuration-missing error immediately, issuing no HTTP
request and opening no socket connection. -/
theorem c4_config_missing (cfg : Config) (net : String → FetchOutcome) (ws : WsOutcome)
    (pj : String → Option JVal) (pd : String → Option Int) (now : Int) (endpoint : String)
    (h : getBaseUrl cfg = "") :
    fetchApi cfg net endpoint = ({ error := some cfgMsg }, [])
    ∧ getVersionInfo cfg net = (cfgMsg, [])
    ∧ getPublicSettings cfg net = (cfgMsg, [])
    ∧ getNodesStatus cfg net pd now = (.error cfgMsg, [])
    ∧ getRealtimeStatus cfg net ws pj = (.error cfgMsg, [], []) := by
  have hf : ∀ e, fetchApi cfg net e = ({ error := some cfgMsg }, []) := by
    intro e
    simp [fetchApi, h]
  refine ⟨hf endpoint, ?_, ?_, ?_, ?_⟩
  · simp [getVersionInfo, hf]
  · simp [getPublicSettings, hf]
  · simp [getNodesStatus, hf]
  · simp [getRealtimeStatus, h]

/-- C4 witness: a URL of slashes only strips to the empty base and the
node-status entry point reports the missing configuration without any
request. -/
theorem c4_config_missing_witness :
    getBaseUrl c4cfg = ""
    ∧ getNodesStatus c4cfg (fun _ => .thrown "unreached") (fun _ => none) 0
      = (.error cfgMsg, []) :=
  ⟨by decide, (c4_config_missing c4cfg (fun _ => .thrown "unreached") .timedOut
      (fun _ => none) (fun _ => none) 0 "/api/nodes" (by decide)).2.2.2.1⟩

/-- C9 counterexample: a node whose payload already carries a localized
updated_at_cn but no updated_at still renders the update line, so the
claim that an absent updated_at omits the line entirely fails. -/
theorem c9_update_line_counterexample :
    c9node.updated_at = none
    ∧ nodeBlock (processNode (fun _ => none) 0 c9node) =
      ["", "📌 🔴  未知", "   系统: 未知", "   CPU: 未知 (0 C)",
       "   内存: 0.00 GB", "   磁盘: 0.00 GB", "   更新: 2024-01-01 00:00:00"] :=
  ⟨rfl, by decide⟩

/-- C9 amended: when a node has no updated_at and also no payload
supplied updated_at_cn, the update line is omitted and the remaining six
lines are rendered with their fallbacks (unknown name, system and CPU,
zero cores, zero GB memory and disk, empty region, red icon). -/
theorem c9_update_line_amended (parse : String → Option Int) (now : Int) (n : KNode)
    (h1 : n.updated_at = none) (h2 : n.updated_at_cn = none) :
    nodeBlock (processNode parse now n) =
      ["", "📌 🔴 " ++ n.region.getD "" ++ " " ++ n.name.getD "未知",
       "   系统: " ++ n.os.getD "未知",
       "   CPU: " ++ n.cpu_name.getD "未知" ++ " (" ++ numToString (n.cpu_cores.getD (.ofInt 0)) ++ " C)",
       "   内存: " ++ toFixed 2 ((((n.mem_total.getD (.ofInt 0)).div (.ofInt 1024)).div
          (.ofInt 1024)).div (.ofInt 1024)) ++ " GB",
       "   磁盘: " ++ toFixed 2 ((((n.disk_total.getD (.ofInt 0)).div (.ofInt 1024)).div
          (.ofInt 1024)).div (.ofInt 1024)) ++ " GB"] := by
  simp [processNode, nodeBlock, rawUpd, h1, h2]

/-- C9 witness: the amended statement applied to the fully absent node
record gives the six placeholder lines and no update line. -/
theorem c9_update_line_amended_witness :
    emptyKNode.updated_at = none ∧ emptyKNode.updated_at_cn = none
    ∧ nodeBlock (processNode (fun _ => none) 0 emptyKNode) =
      ["", "📌 🔴  未知", "   系统: 未知", "   CPU: 未知 (0 C)",
       "   内存: 0.00 GB", "   磁盘: 0.00 GB"] := by
  refine ⟨rfl, rfl, ?_⟩
  rw [c9_update_line_amended (fun _ => none) 0 emptyKNode rfl rfl]
  decide

/-- C5: a 2xx envelope with status success whose data array is empty or
absent makes getNodesStatus return the no-nodes error and no report
text. -/
theorem c5_empty_node_list (cfg : Config) (net : String → FetchOutcome)
    (pd : String → Option Int) (now : Int) (env : JVal)
    (h1 : getBaseUrl cfg ≠ "")
    (h2 : net (getBaseUrl cfg ++ "/api/nodes") = .ok env)
    (h3 : env.get "status" = some (.jstr "success"))
    (h4 : env.get "data" = some (.jarr []) ∨ env.get "data" = none) :
    (getNodesStatus cfg net pd now).1 = .error "未找到任何节点。" := by
  have hnn : env ≠ .jnull := by
    intro he
    rw [he] at h3
    simp [JVal.get] at h3
  have ht : truthy env = true := by
    cases env <;> simp_all [JVal.get, truthy]
  rcases h4 with h4 | h4 <;>
    simp [getNodesStatus, fetchApi_ok cfg net "/api/nodes" env h1 h2 hnn, ht, h3,
      nodesBody, h4]

/-- C5 witness: a success envelope carrying an empty data array yields
the no-nodes error. -/
theorem c5_empty_node_list_witness :
    getBaseUrl c8cfg ≠ ""
    ∧ (getNodesStatus c8cfg
        (fun _ => .ok (.jobj [("status", .jstr "success"), ("data", .jarr [])]))
        (fun _ => none) 0).1 = .error "未找到任何节点。" :=
  ⟨by decide,
   c5_empty_node_list c8cfg
     (fun _ => .ok (.jobj [("status", .jstr "success"), ("data", .jarr [])]))
     (fun _ => none) 0 (.jobj [("status", .jstr "success"), ("data", .jarr [])])
     (by decide) rfl rfl (Or.inl rfl)⟩

/-- C6: the realtime candidate list never exceeds 10 entries; an array
payload contributes exactly its first 10 elements, and an object payload
contributes, for each of the first 10 identifiers of its online array in
order, the entry of its data mapping when one exists (entries being node
records), else a record holding only that identifier. -/
theorem c6_candidate_cap :
    (∀ payload, (extractCandidates payload).length ≤ 10)
    ∧ (∀ l, extractCandidates (.jarr l) = l.take 10)
    ∧ (∀ (fs : List (String × JVal)) (ids : List String) (d : List (String × JVal)),
        JVal.get (.jobj fs) "online" = some (.jarr (ids.map JVal.jstr)) →
        JVal.get (.jobj fs) "data" = some (.jobj d) →
        (∀ p ∈ d, ∃ gs, (p : String × JVal).2 = .jobj gs) →
        extractCandidates (.jobj fs) =
          (ids.take 10).map (fun s =>
            match assocGet d s with
            | some v => v
            | none => .jobj [("uuid", .jstr s)])) := by
  refine ⟨?_, fun l => rfl, ?_⟩
  · intro payload
    cases payload with
    | jarr l => simp [extractCandidates]
    | jobj fs => simp [extractCandidates]
    | jnull => simp [extractCandidates]
    | jbool b => simp [extractCandidates]
    | jnum q => simp [extractCandidates]
    | jstr s => simp [extractCandidates]
  · intro fs ids d hon hdat hobj
    simp only [extractCandidates, hon, hdat, truthy, objLike, Bool.and_self, if_true]
    rw [← List.map_take, List.map_map]
    apply List.map_congr_left
    intro s _
    simp only [Function.comp]
    cases hfind : assocGet d s with
    | none => simp [JVal.get, hfind]
    | some v =>
      obtain ⟨gs, hg⟩ := hobj (s, v) (assocGet_mem d s v hfind)
      simp only at hg
      subst hg
      simp [JVal.get, hfind, truthy]

/-- C6 witness: the object-payload characterization applied to a payload
with two online identifiers, one of which has a data entry. -/
theorem c6_candidate_cap_witness :
    JVal.get (.jobj c6fs) "online" = some (.jarr (["a", "b"].map JVal.jstr))
    ∧ JVal.get (.jobj c6fs) "data" = some (.jobj c6d)
    ∧ extractCandidates (.jobj c6fs) =
        (["a", "b"].take 10).map (fun s =>
          match assocGet c6d s with
          | some v => v
          | none => .jobj [("uuid", .jstr s)]) :=
  ⟨rfl, rfl,
   c6_candidate_cap.2.2 c6fs ["a", "b"] c6d rfl rfl (by
     intro p hp
     simp only [c6d, List.mem_singleton] at hp
     subst hp
     exact ⟨[("name", JVal.jstr "A")], rfl⟩)⟩

/-- C8 counterexample: a 2xx body of JSON null makes getVersionInfo
return the property-access error string rather than a formatted report,
so a claim over every 2xx body fails. -/
theorem c8_status_counterexample :
    (getVersionInfo c8cfg c8netNull).1 = nullDataMsg
    ∧ strStartsWith (getVersionInfo c8cfg c8netNull).1 "Komari 版本" = false :=
  ⟨by decide, by decide⟩

/-- C8 amended: for every 2xx JSON body other than null, getVersionInfo
and getPublicSettings never inspect the envelope status: the result
depends only on the data field, is always a report with the respective
fixed prefix (with dash, unknown, empty and default fallbacks), and only
getNodesStatus maps a non-success envelope to an error. -/
theorem c8_status_not_inspected :
    (∀ cfg n1 n2 v1 v2, getBaseUrl cfg ≠ "" →
      n1 (getBaseUrl cfg ++ "/api/version") = .ok v1 →
      n2 (getBaseUrl cfg ++ "/api/version") = .ok v2 →
      v1 ≠ .jnull → v2 ≠ .jnull → v1.get "data" = v2.get "data" →
      (getVersionInfo cfg n1).1 = (getVersionInfo cfg n2).1)
    ∧ (∀ cfg n v, getBaseUrl cfg ≠ "" → n (getBaseUrl cfg ++ "/api/version") = .ok v →
        v ≠ .jnull → ∃ r, (getVersionInfo cfg n).1 = "Komari 版本: " ++ r)
    ∧ (∀ cfg n1 n2 v1 v2, getBaseUrl cfg ≠ "" →
        n1 (getBaseUrl cfg ++ "/api/public") = .ok v1 →
        n2 (getBaseUrl cfg ++ "/api/public") = .ok v2 →
        v1 ≠ .jnull → v2 ≠ .jnull → v1.get "data" = v2.get "data" →
        (getPublicSettings cfg n1).1 = (getPublicSettings cfg n2).1)
    ∧ (∀ cfg n v, getBaseUrl cfg ≠ "" → n (getBaseUrl cfg ++ "/api/public") = .ok v →
        v ≠ .jnull → ∃ r, (getPublicSettings cfg n).1 = "站点名称: " ++ r)
    ∧ (∀ cfg n v pd now, getBaseUrl cfg ≠ "" → n (getBaseUrl cfg ++ "/api/nodes") = .ok v →
        truthy v = true → (∀ s, v.get "status" = some s → s ≠ .jstr "success") →
        (getNodesStatus cfg n pd now).1 =
          .error ("API 调用失败: " ++ nn (v.get "message") "未知错误"))
    ∧ (getVersionInfo c8cfg c8netFailed).1 = "Komari 版本: - (-)"
    ∧ (getPublicSettings c8cfg c8netFailed).1 = "站点名称: 未知\n描述: \n主题: 默认" := by
  refine ⟨?_, ?_, ?_, ?_, ?_, by decide, by decide⟩
  · intro cfg n1 n2 v1 v2 h1 h21 h22 h31 h32 hd
    rw [getVersionInfo_ok cfg n1 v1 h1 h21 h31, getVersionInfo_ok cfg n2 v2 h1 h22 h32,
      envData_eq v1 v2 hd]
  · intro cfg n v h1 h2 h3
    rw [getVersionInfo_ok cfg n v h1 h2 h3]
    exact ⟨_, rfl⟩
  · intro cfg n1 n2 v1 v2 h1 h21 h22 h31 h32 hd
    rw [getPublicSettings_ok cfg n1 v1 h1 h21 h31, getPublicSettings_ok cfg n2 v2 h1 h22 h32,
      envData_eq v1 v2 hd]
  · intro cfg n v h1 h2 h3
    rw [getPublicSettings_ok cfg n v h1 h2 h3]
    exact ⟨_, rfl⟩
  · intro cfg n v pd now h1 h2 ht hst
    exact getNodesStatus_api_fail cfg n pd now v h1 h2 ht hst

/-- C8 witness: the amended statement applied to a failed envelope with
no data gives a version report with dash fallbacks. -/
theorem c8_status_not_inspected_witness :
    getBaseUrl c8cfg ≠ ""
    ∧ ∃ r, (getVersionInfo c8cfg c8netFailed).1 = "Komari 版本: " ++ r :=
  ⟨by decide,
   c8_status_not_inspected.2.1 c8cfg c8netFailed (.jobj [("status", .jstr "failed")])
     (by decide) rfl (fun h => JVal.noConfusion h)⟩

end Komari
